import Mathlib

/-!
Verification of the numerical core of `options_pdf_calculator.py`
(class `OptionsPDFCalculator`), shallowly embedded over the real numbers.

Modelling conventions:
- `scipy.stats.norm.pdf` / `scipy.stats.norm.cdf` are the mathematical standard
  normal density and its cumulative integral (`normPdf`, `normCdf`).
- `np.nan` results of `implied_volatility` ("INVALID") are `Option.none`.
- Python exceptions raised inside `calculate_pdf` are `Except.error` values of
  the inductive `PipeError`; the `else` value of `x if c else y` is kept.
- `scipy.optimize.minimize` is an external library routine with no source in
  this repository; the pipeline is parameterised over it (`Optimizer`), and
  all pipeline theorems hold for an arbitrary optimizer output.
- Division by zero in ℝ yields 0 where IEEE arithmetic would yield inf/nan;
  `Real.sqrt` of a negative number is 0 where `np.sqrt` yields nan.  No claim
  below depends on the value produced at such a point, only on control flow,
  which the embedding preserves (the Python code raises no exception there,
  since numpy warnings are suppressed).
- The three external inputs of the pipeline (spot price from yfinance, the
  quote rows of the fetched option chain, and the maturity computed from the
  expiry date) are parameters of the embedded `calculate_pdf`; the interest
  rate is the constant `0.05` exactly as in the source (line 387).
-/

open MeasureTheory Set
open scoped Classical

namespace OptionsPDF

/-- `scipy.stats.norm.pdf`: the standard normal density. -/
noncomputable def normPdf (x : ℝ) : ℝ :=
  (Real.sqrt (2 * Real.pi))⁻¹ * Real.exp (-(x ^ 2) / 2)

/-- `scipy.stats.norm.cdf`: the standard normal cumulative distribution. -/
noncomputable def normCdf (x : ℝ) : ℝ :=
  ∫ t in Iic x, normPdf t

/-- The `d1` expression of `black_scholes_call` (source line 262); the same
expression is recomputed inline for the vega on source line 273. -/
noncomputable def bsD1 (S K T r σ : ℝ) : ℝ :=
  (Real.log (S / K) + (r + σ ^ 2 / 2) * T) / (σ * Real.sqrt T)

/-- `black_scholes_call` (source lines 258-264).  `d2 = d1 - sigma*sqrt(T)`. -/
noncomputable def black_scholes_call (S K T r σ : ℝ) : ℝ :=
  if T ≤ 0 ∨ σ ≤ 0 then max (S - K) 0
  else S * normCdf (bsD1 S K T r σ)
    - K * Real.exp (-r * T) * normCdf (bsD1 S K T r σ - σ * Real.sqrt T)

/-- The Newton-Raphson loop of `implied_volatility` (source lines 270-282).
`fuel` counts the iterations remaining of `for i in range(100)`; the
`fuel = 0` case is the post-loop `return sigma if sigma > 0 else np.nan`,
which is also where the `break` on `|vega| < 1e-10` lands (the current
`sigma` is returned there, since the final line re-checks positivity). -/
noncomputable def ivLoop (mp S K T r : ℝ) : ℕ → ℝ → Option ℝ
  | 0, σ => if 0 < σ then some σ else none
  | n + 1, σ =>
      let price := black_scholes_call S K T r σ
      let vega := S * normPdf (bsD1 S K T r σ) * Real.sqrt T
      if |vega| < 1 / 10 ^ 10 then (if 0 < σ then some σ else none)
      else if |mp - price| < 1 / 10 ^ 6 then some σ
      else
        let σ1 := σ + (mp - price) / vega
        if σ1 ≤ 0 then none else ivLoop mp S K T r n σ1

/-- `implied_volatility` (source lines 266-282): arbitrage pre-check, then
Newton-Raphson from `sigma = 0.3` with at most 100 iterations. -/
noncomputable def implied_volatility (mp S K T r : ℝ) : Option ℝ :=
  if mp ≤ max (S - K * Real.exp (-r * T)) 0 then none
  else ivLoop mp S K T r 100 (3 / 10)

/-- The SVI parameter vector `[a, b, rho, m, sigma]` of `fit_svi`. -/
structure SVIParams where
  a : ℝ
  b : ℝ
  rho : ℝ
  m : ℝ
  sigma : ℝ

/-- `svi_variance` (source lines 284-287). -/
noncomputable def svi_variance (k : ℝ) (p : SVIParams) : ℝ :=
  p.a + p.b * (p.rho * (k - p.m) + Real.sqrt ((k - p.m) ^ 2 + p.sigma ^ 2))

/-- `svi_objective` (source lines 289-291): sum of squared residuals over the
paired data points. -/
noncomputable def svi_objective (p : SVIParams) (kData varData : List ℝ) : ℝ :=
  ((kData.zip varData).map (fun q => (svi_variance q.1 p - q.2) ^ 2)).sum

/-! Quantitative facts about the standard normal density and cdf, used to
evaluate the embedded solver on concrete inputs. -/

theorem normPdf_nonneg (x : ℝ) : 0 ≤ normPdf x :=
  mul_nonneg (inv_nonneg.mpr (Real.sqrt_nonneg _)) (Real.exp_pos _).le

theorem sqrt_two_pi_pos : 0 < Real.sqrt (2 * Real.pi) :=
  Real.sqrt_pos.mpr (by positivity)

theorem normPdf_pos (x : ℝ) : 0 < normPdf x :=
  mul_pos (inv_pos.mpr sqrt_two_pi_pos) (Real.exp_pos _)

theorem sqrt_two_pi_le : Real.sqrt (2 * Real.pi) ≤ 13 / 5 := by
  calc Real.sqrt (2 * Real.pi) ≤ Real.sqrt ((13 / 5) ^ 2) :=
        Real.sqrt_le_sqrt (by nlinarith [Real.pi_lt_d2])
    _ = 13 / 5 := Real.sqrt_sq (by norm_num)

theorem two_le_sqrt_two_pi : 2 ≤ Real.sqrt (2 * Real.pi) := by
  calc (2 : ℝ) = Real.sqrt (2 ^ 2) := (Real.sqrt_sq (by norm_num)).symm
    _ ≤ Real.sqrt (2 * Real.pi) := Real.sqrt_le_sqrt (by nlinarith [Real.pi_gt_three])

theorem normPdf_le_half (x : ℝ) : normPdf x ≤ 1 / 2 := by
  have h1 : Real.exp (-(x ^ 2) / 2) ≤ 1 := by
    rw [← Real.exp_zero]
    exact Real.exp_le_exp.mpr (by nlinarith [sq_nonneg x])
  have h2 : (Real.sqrt (2 * Real.pi))⁻¹ ≤ 1 / 2 := by
    rw [show (1 : ℝ) / 2 = 2⁻¹ by norm_num]
    exact inv_anti₀ two_pos two_le_sqrt_two_pi
  calc normPdf x ≤ (Real.sqrt (2 * Real.pi))⁻¹ * 1 :=
        mul_le_mul_of_nonneg_left h1 (inv_nonneg.mpr (Real.sqrt_nonneg _))
    _ = (Real.sqrt (2 * Real.pi))⁻¹ := mul_one _
    _ ≤ 1 / 2 := h2

theorem normPdf_neg (x : ℝ) : normPdf (-x) = normPdf x := by
  simp [normPdf, neg_sq]

theorem integrable_normPdf : Integrable normPdf := by
  have h : normPdf = fun x => (Real.sqrt (2 * Real.pi))⁻¹ * Real.exp (-(1 / 2) * x ^ 2) := by
    funext x
    rw [normPdf, show -(x ^ 2) / 2 = -(1 / 2) * x ^ 2 by ring]
  rw [h]
  exact (integrable_exp_neg_mul_sq (by norm_num)).const_mul _

theorem normCdf_sub {a b : ℝ} (h : a ≤ b) :
    normCdf b - normCdf a = ∫ t in Ioc a b, normPdf t := by
  rw [normCdf, normCdf, ← Iic_union_Ioc_eq_Iic h,
    setIntegral_union (Iic_disjoint_Ioc le_rfl) measurableSet_Ioc
      integrable_normPdf.integrableOn integrable_normPdf.integrableOn]
  ring

theorem normCdf_mono {a b : ℝ} (h : a ≤ b) : normCdf a ≤ normCdf b := by
  have h1 : 0 ≤ ∫ t in Ioc a b, normPdf t :=
    setIntegral_nonneg measurableSet_Ioc fun x _ => normPdf_nonneg x
  have h2 := normCdf_sub h
  linarith

theorem normCdf_strict_mono {a b : ℝ} (h : a < b) : normCdf a < normCdf b := by
  have h1 : 0 < ∫ t in Ioc a b, normPdf t := by
    rw [setIntegral_pos_iff_support_of_nonneg_ae
      (Filter.Eventually.of_forall fun x => normPdf_nonneg x)
      integrable_normPdf.integrableOn]
    have hsupp : Function.support normPdf = univ := by
      ext x
      simp [Function.mem_support, (normPdf_pos x).ne']
    rw [hsupp, univ_inter, Real.volume_Ioc]
    exact ENNReal.ofReal_pos.mpr (by linarith)
  have h2 := normCdf_sub h.le
  linarith

theorem normCdf_sub_le {a b : ℝ} (h : a ≤ b) :
    normCdf b - normCdf a ≤ (b - a) * (1 / 2) := by
  rw [normCdf_sub h]
  calc (∫ t in Ioc a b, normPdf t) ≤ ∫ _t in Ioc a b, (1 : ℝ) / 2 :=
        setIntegral_mono_on integrable_normPdf.integrableOn
          (integrableOn_const.mpr (Or.inr measure_Ioc_lt_top))
          measurableSet_Ioc fun x _ => normPdf_le_half x
    _ = (b - a) * (1 / 2) := by
        rw [setIntegral_const, Real.volume_Ioc, ENNReal.toReal_ofReal (by linarith),
          smul_eq_mul]

theorem le_normCdf_sub {a b m : ℝ} (h : a ≤ b)
    (hm : ∀ x ∈ Ioc a b, m ≤ normPdf x) :
    (b - a) * m ≤ normCdf b - normCdf a := by
  rw [normCdf_sub h]
  calc (b - a) * m = ∫ _t in Ioc a b, m := by
        rw [setIntegral_const, Real.volume_Ioc, ENNReal.toReal_ofReal (by linarith),
          smul_eq_mul]
    _ ≤ ∫ t in Ioc a b, normPdf t :=
        setIntegral_mono_on (integrableOn_const.mpr (Or.inr measure_Ioc_lt_top))
          integrable_normPdf.integrableOn measurableSet_Ioc hm

theorem integral_normPdf : (∫ t, normPdf t) = 1 := by
  have h : (∫ t, normPdf t)
      = (Real.sqrt (2 * Real.pi))⁻¹ * ∫ t : ℝ, Real.exp (-(1 / 2) * t ^ 2) := by
    rw [← integral_mul_left]
    congr 1
    funext t
    rw [normPdf, show -(t ^ 2) / 2 = -(1 / 2) * t ^ 2 by ring]
  rw [h, integral_gaussian, show Real.pi / (1 / 2) = 2 * Real.pi by ring]
  exact inv_mul_cancel₀ sqrt_two_pi_pos.ne'

theorem normCdf_zero : normCdf 0 = 1 / 2 := by
  have heq : (∫ t in Iic (0 : ℝ), normPdf t) = ∫ t in Ioi (0 : ℝ), normPdf t := by
    have h1 : (∫ t in Iic (0 : ℝ), normPdf t) = ∫ t in Iic (0 : ℝ), normPdf (-t) :=
      setIntegral_congr_fun measurableSet_Iic fun x _ => (normPdf_neg x).symm
    rw [h1, integral_comp_neg_Iic, neg_zero]
  have hsplit := intervalIntegral.integral_Iic_add_Ioi (b := (0 : ℝ))
    integrable_normPdf.integrableOn integrable_normPdf.integrableOn
  rw [integral_normPdf] at hsplit
  rw [normCdf]
  linarith [heq, hsplit]

theorem normPdf_three_tenths : (9 / 25 : ℝ) ≤ normPdf (3 / 10) := by
  have h1 : ((191 : ℝ) / 200) ≤ Real.exp (-((3 / 10 : ℝ) ^ 2) / 2) := by
    have h2 := Real.add_one_le_exp (-((3 / 10 : ℝ) ^ 2) / 2)
    nlinarith
  have h3 : (5 / 13 : ℝ) ≤ (Real.sqrt (2 * Real.pi))⁻¹ := by
    rw [show (5 / 13 : ℝ) = (13 / 5)⁻¹ by norm_num]
    exact inv_anti₀ sqrt_two_pi_pos sqrt_two_pi_le
  have h4 : (0 : ℝ) < Real.exp (-((3 / 10 : ℝ) ^ 2) / 2) := Real.exp_pos _
  rw [normPdf]
  nlinarith

/-- The pre-check branch of `implied_volatility` (source lines 268-269). -/
theorem implied_volatility_precheck {mp S K T r : ℝ}
    (h : mp ≤ max (S - K * Real.exp (-r * T)) 0) :
    implied_volatility mp S K T r = none := by
  simp only [implied_volatility, if_pos h]

/-- When the pre-check passes, the solver is the Newton loop with 100 fuel. -/
theorem implied_volatility_loop {mp S K T r : ℝ}
    (h : ¬ mp ≤ max (S - K * Real.exp (-r * T)) 0) :
    implied_volatility mp S K T r = ivLoop mp S K T r 100 (3 / 10) := by
  simp only [implied_volatility, if_neg h]

/-- C4: for every market price that does not exceed the discounted intrinsic
lower bound `max(spot − strike·e^(−rate·maturity), 0)`, the implied-volatility
solver returns INVALID (`none`) immediately, hence never a positive
volatility. -/
theorem C4_solver_invalid_below_intrinsic (mp S K T r : ℝ)
    (h : mp ≤ max (S - K * Real.exp (-r * T)) 0) :
    implied_volatility mp S K T r = none :=
  implied_volatility_precheck h

/-- C4 witness: at `mp = 0, S = 1, K = 1, T = 1, r = 0` the bound is `0`,
the hypothesis holds, and the solver returns `none`. -/
theorem C4_witness :
    ((0 : ℝ) ≤ max (1 - 1 * Real.exp (-0 * 1)) 0) ∧
      implied_volatility 0 1 1 1 0 = none := by
  have h : (0 : ℝ) ≤ max (1 - 1 * Real.exp (-0 * 1)) 0 := le_max_right _ _
  exact ⟨h, C4_solver_invalid_below_intrinsic 0 1 1 1 0 h⟩

/-- C9: if maturity ≤ 0 or volatility ≤ 0, the Pricer returns the intrinsic
value `max(spot − strike, 0)` (degenerate-case policy, not an error). -/
theorem C9_pricer_degenerate (S K T r σ : ℝ) (h : T ≤ 0 ∨ σ ≤ 0) :
    black_scholes_call S K T r σ = max (S - K) 0 := by
  simp only [black_scholes_call, if_pos h]

/-- C9 witness: at `S = 2, K = 1, T = 0, r = 1/20, σ = 1` the maturity is
degenerate and the price is the intrinsic value. -/
theorem C9_witness :
    ((0 : ℝ) ≤ 0 ∨ (1 : ℝ) ≤ 0) ∧ black_scholes_call 2 1 0 (1 / 20) 1 = max (2 - 1) 0 :=
  ⟨Or.inl le_rfl, C9_pricer_degenerate 2 1 0 (1 / 20) 1 (Or.inl le_rfl)⟩

/-- C5: for every parameter tuple satisfying the calibration bounds
`a ≥ 0, b ≥ 0, −1 ≤ ρ ≤ 1, σ > 0` and every log-moneyness `k`, the SVI total
variance `w(k)` is non-negative. -/
theorem C5_svi_variance_nonneg (p : SVIParams) (k : ℝ)
    (ha : 0 ≤ p.a) (hb : 0 ≤ p.b) (hr1 : -1 ≤ p.rho) (hr2 : p.rho ≤ 1)
    (_hs : 0 < p.sigma) : 0 ≤ svi_variance k p := by
  have h1 : |p.rho * (k - p.m)| ≤ |k - p.m| := by
    rw [abs_mul]
    exact mul_le_of_le_one_left (abs_nonneg _) (abs_le.mpr ⟨hr1, hr2⟩)
  have h2 : |k - p.m| ≤ Real.sqrt ((k - p.m) ^ 2 + p.sigma ^ 2) := by
    rw [← Real.sqrt_sq_eq_abs]
    exact Real.sqrt_le_sqrt (by nlinarith [sq_nonneg p.sigma])
  have h3 : 0 ≤ p.rho * (k - p.m) + Real.sqrt ((k - p.m) ^ 2 + p.sigma ^ 2) := by
    have h4 := neg_abs_le (p.rho * (k - p.m))
    linarith
  exact add_nonneg ha (mul_nonneg hb h3)

/-- C5 witness: the parameter tuple `(0, 0, 0, 0, 1)` satisfies the bounds and
gives non-negative variance at `k = 0`. -/
theorem C5_witness :
    ((0 : ℝ) ≤ 0 ∧ (0 : ℝ) ≤ 0 ∧ (-1 : ℝ) ≤ 0 ∧ (0 : ℝ) ≤ 1 ∧ (0 : ℝ) < 1) ∧
      0 ≤ svi_variance 0 ⟨0, 0, 0, 0, 1⟩ :=
  ⟨by norm_num,
    C5_svi_variance_nonneg ⟨0, 0, 0, 0, 1⟩ 0 le_rfl le_rfl (by norm_num) (by norm_num) one_pos⟩

end OptionsPDF

namespace OptionsPDF

/-! Exit behaviour of the Newton-Raphson loop. -/

/-- One-step unfolding of the loop at zero fuel (the post-loop return). -/
theorem ivLoop_zero (mp S K T r σ : ℝ) :
    ivLoop mp S K T r 0 σ = if 0 < σ then some σ else none := rfl

/-- One-step unfolding of the loop at positive fuel. -/
theorem ivLoop_succ (mp S K T r : ℝ) (n : ℕ) (σ : ℝ) :
    ivLoop mp S K T r (n + 1) σ =
      if |S * normPdf (bsD1 S K T r σ) * Real.sqrt T| < 1 / 10 ^ 10 then
        (if 0 < σ then some σ else none)
      else if |mp - black_scholes_call S K T r σ| < 1 / 10 ^ 6 then some σ
      else if σ + (mp - black_scholes_call S K T r σ)
          / (S * normPdf (bsD1 S K T r σ) * Real.sqrt T) ≤ 0 then none
      else ivLoop mp S K T r n
        (σ + (mp - black_scholes_call S K T r σ)
          / (S * normPdf (bsD1 S K T r σ) * Real.sqrt T)) := rfl

/-- If the current guess is positive and its vega is below the `1e-10` cutoff,
the loop `break`s and the post-loop line returns the (positive) current guess. -/
theorem ivLoop_vega_break {mp S K T r σ : ℝ} (n : ℕ) (hσ : 0 < σ)
    (hv : |S * normPdf (bsD1 S K T r σ) * Real.sqrt T| < 1 / 10 ^ 10) :
    ivLoop mp S K T r (n + 1) σ = some σ := by
  rw [ivLoop_succ, if_pos hv, if_pos hσ]

/-- If the vega cutoff does not fire and the price residual is below `1e-6`,
the loop returns the current guess (converged). -/
theorem ivLoop_residual_exit {mp S K T r σ : ℝ} (n : ℕ)
    (hv : ¬ |S * normPdf (bsD1 S K T r σ) * Real.sqrt T| < 1 / 10 ^ 10)
    (hres : |mp - black_scholes_call S K T r σ| < 1 / 10 ^ 6) :
    ivLoop mp S K T r (n + 1) σ = some σ := by
  rw [ivLoop_succ, if_neg hv, if_pos hres]

/-! Concrete flat-vega input: maturity `1e-30` years, spot `100`, rate `1`,
strike `100·e^(1e-30)` chosen so the discounted intrinsic bound is exactly 0.
At this input the vega at any volatility guess is below the `1e-10` cutoff. -/

noncomputable def tinyT : ℝ := 1 / 10 ^ 30

noncomputable def strikeTiny : ℝ := 100 * Real.exp (1 / 10 ^ 30)

theorem tinyT_pos : 0 < tinyT := by rw [tinyT]; norm_num

theorem strikeTiny_pos : 0 < strikeTiny := by
  rw [strikeTiny]; positivity

theorem sqrt_tinyT : Real.sqrt tinyT = 1 / 10 ^ 15 := by
  rw [show tinyT = ((1 : ℝ) / 10 ^ 15) ^ 2 by rw [tinyT]; norm_num,
    Real.sqrt_sq (by norm_num)]

theorem vega_small_tiny (x : ℝ) :
    |(100 : ℝ) * normPdf x * Real.sqrt tinyT| < 1 / 10 ^ 10 := by
  rw [sqrt_tinyT, abs_of_nonneg
    (mul_nonneg (mul_nonneg (by norm_num) (normPdf_nonneg x)) (by norm_num))]
  nlinarith [normPdf_le_half x, normPdf_nonneg x]

theorem strikeTiny_discount : strikeTiny * Real.exp (-1 * tinyT) = 100 := by
  rw [strikeTiny, tinyT, mul_assoc, ← Real.exp_add]
  norm_num [Real.exp_zero]

theorem tiny_bound : max (100 - strikeTiny * Real.exp (-1 * tinyT)) 0 = 0 := by
  rw [strikeTiny_discount]
  norm_num

theorem bs_tiny_eval {σ : ℝ} (hσ : 0 < σ) :
    black_scholes_call 100 strikeTiny tinyT 1 σ
      = 100 * (normCdf (bsD1 100 strikeTiny tinyT 1 σ)
          - normCdf (bsD1 100 strikeTiny tinyT 1 σ - σ * Real.sqrt tinyT)) := by
  rw [black_scholes_call, if_neg (by push_neg; exact ⟨tinyT_pos, hσ⟩), strikeTiny_discount]
  ring

theorem bs_tiny_pos {σ : ℝ} (hσ : 0 < σ) :
    0 < black_scholes_call 100 strikeTiny tinyT 1 σ := by
  rw [bs_tiny_eval hσ]
  have hlt : bsD1 100 strikeTiny tinyT 1 σ - σ * Real.sqrt tinyT
      < bsD1 100 strikeTiny tinyT 1 σ := by
    have : 0 < σ * Real.sqrt tinyT := by
      rw [sqrt_tinyT]
      positivity
    linarith
  nlinarith [normCdf_strict_mono hlt]

theorem bs_tiny_le_threeTenths :
    black_scholes_call 100 strikeTiny tinyT 1 (3 / 10) ≤ 1 / 10 ^ 13 := by
  rw [bs_tiny_eval (by norm_num), sqrt_tinyT]
  have hle : bsD1 100 strikeTiny tinyT 1 (3 / 10) - (3 / 10) * (1 / 10 ^ 15)
      ≤ bsD1 100 strikeTiny tinyT 1 (3 / 10) := by
    norm_num
  have h1 := normCdf_sub_le hle
  nlinarith [h1]

/-- C1 counterexample: at `mp = 1, S = 100, K = 100·e^(1e-30), T = 1e-30,
r = 1`, the first Newton iteration reaches `sigma = 0.3` with `|vega| < 1e-10`
while the price residual is about `1` (far above the `1e-6` convergence
threshold), yet the solver returns the volatility `0.3` instead of INVALID
(the `break` lands on `return sigma if sigma > 0 else np.nan`, and
`sigma = 0.3 > 0`). -/
theorem C1_counterexample :
    |(100 : ℝ) * normPdf (bsD1 100 strikeTiny tinyT 1 (3 / 10)) * Real.sqrt tinyT|
        < 1 / 10 ^ 10
    ∧ ¬ |1 - black_scholes_call 100 strikeTiny tinyT 1 (3 / 10)| < 1 / 10 ^ 6
    ∧ implied_volatility 1 100 strikeTiny tinyT 1 = some (3 / 10) := by
  refine ⟨vega_small_tiny _, ?_, ?_⟩
  · have h1 := bs_tiny_le_threeTenths
    have h2 := bs_tiny_pos (show (0 : ℝ) < 3 / 10 by norm_num)
    rw [abs_of_nonneg (by linarith)]
    intro hc
    linarith
  · rw [implied_volatility_loop (by rw [tiny_bound]; norm_num)]
    exact ivLoop_vega_break 99 (by norm_num) (vega_small_tiny _)

/-- C1 amended: whenever a Newton iteration reaches a positive guess whose
vega magnitude is below `1e-10`, the solver terminates and returns that guess
itself (a positive volatility), not INVALID. -/
theorem C1_amended_vega_cutoff_returns_guess (mp S K T r σ : ℝ) (n : ℕ)
    (hσ : 0 < σ)
    (hv : |S * normPdf (bsD1 S K T r σ) * Real.sqrt T| < 1 / 10 ^ 10) :
    ivLoop mp S K T r (n + 1) σ = some σ :=
  ivLoop_vega_break n hσ hv

/-- C1 amended witness: the concrete flat-vega input, at guess `0.3` with 99
iterations of fuel remaining. -/
theorem C1_amended_witness :
    (0 : ℝ) < 3 / 10
    ∧ |(100 : ℝ) * normPdf (bsD1 100 strikeTiny tinyT 1 (3 / 10)) * Real.sqrt tinyT|
        < 1 / 10 ^ 10
    ∧ ivLoop 1 100 strikeTiny tinyT 1 (99 + 1) (3 / 10) = some (3 / 10) :=
  ⟨by norm_num, vega_small_tiny _,
    C1_amended_vega_cutoff_returns_guess 1 100 strikeTiny tinyT 1 (3 / 10) 99
      (by norm_num) (vega_small_tiny _)⟩

/-- C7 counterexample: pricing at the synthetic volatility `σ₀ = 1`
(inside `[0.05, 2.0)`) with positive spot `100`, strike `100·e^(1e-30)`,
maturity `1e-30` and rate `1`, then inverting, returns `0.3`
(the initial guess, via the vega cutoff), which differs from `σ₀ = 1`
by far more than `1e-5`. -/
theorem C7_counterexample :
    ((1 / 20 : ℝ) ≤ 1 ∧ (1 : ℝ) < 2 ∧ (0 : ℝ) < 100 ∧ 0 < strikeTiny
        ∧ 0 < tinyT ∧ (0 : ℝ) < 1)
    ∧ implied_volatility (black_scholes_call 100 strikeTiny tinyT 1 1)
        100 strikeTiny tinyT 1 = some (3 / 10)
    ∧ ¬ |(3 / 10 : ℝ) - 1| ≤ 1 / 10 ^ 5 := by
  refine ⟨⟨by norm_num, by norm_num, by norm_num, strikeTiny_pos, tinyT_pos, by norm_num⟩,
    ?_, ?_⟩
  · have hmp := bs_tiny_pos (show (0 : ℝ) < 1 by norm_num)
    rw [implied_volatility_loop (by rw [tiny_bound]; exact not_le.mpr hmp)]
    exact ivLoop_vega_break 99 (by norm_num) (vega_small_tiny _)
  · rw [abs_of_neg (by norm_num)]
    norm_num

end OptionsPDF

namespace OptionsPDF

/-- The `fuel = 0` exit (loop exhaustion) returns the current iterate when it
is positive. -/
theorem ivLoop_zero_some {mp S K T r σ v : ℝ}
    (h : ivLoop mp S K T r 0 σ = some v) : 0 < σ ∧ v = σ := by
  rw [ivLoop_zero] at h
  by_cases hσ : 0 < σ
  · rw [if_pos hσ] at h
    exact ⟨hσ, (Option.some.inj h).symm⟩
  · rw [if_neg hσ] at h
    exact Option.noConfusion h

/-- A solver result that is unchanged when one more iteration of fuel is
granted, and whose vega is not below the cutoff, must have exited through the
residual-convergence test, so it reprices the market price within `1e-6`. -/
theorem ivLoop_converged_of_stable {mp S K T r : ℝ} :
    ∀ (n : ℕ) (σ v : ℝ),
      ivLoop mp S K T r n σ = some v →
      ivLoop mp S K T r (n + 1) σ = some v →
      ¬ |S * normPdf (bsD1 S K T r v) * Real.sqrt T| < 1 / 10 ^ 10 →
      |mp - black_scholes_call S K T r v| < 1 / 10 ^ 6 := by
  intro n
  induction n with
  | zero =>
    intro σ v h0 h1 hvega
    obtain ⟨hσ, hv⟩ := ivLoop_zero_some h0
    rw [hv] at hvega ⊢
    rw [ivLoop_succ] at h1
    by_cases hveq : |S * normPdf (bsD1 S K T r σ) * Real.sqrt T| < 1 / 10 ^ 10
    · exact absurd hveq hvega
    · rw [if_neg hveq] at h1
      by_cases hres : |mp - black_scholes_call S K T r σ| < 1 / 10 ^ 6
      · exact hres
      · rw [if_neg hres] at h1
        by_cases hneg : (σ + (mp - black_scholes_call S K T r σ)
            / (S * normPdf (bsD1 S K T r σ) * Real.sqrt T)) ≤ 0
        · rw [if_pos hneg] at h1
          exact Option.noConfusion h1
        · rw [if_neg hneg] at h1
          obtain ⟨hpos1, heq1⟩ := ivLoop_zero_some h1
          have heq2 := hv.symm.trans heq1
          have hdiv : (mp - black_scholes_call S K T r σ)
              / (S * normPdf (bsD1 S K T r σ) * Real.sqrt T) ≠ 0 := by
            apply div_ne_zero
            · intro hc
              exact hres (by rw [hc, abs_zero]; norm_num)
            · intro hc
              exact hveq (by rw [hc, abs_zero]; norm_num)
          exact absurd (by linarith : (mp
              - black_scholes_call S K T r σ)
              / (S * normPdf (bsD1 S K T r σ) * Real.sqrt T) = 0) hdiv
  | succ n ih =>
    intro σ v h0 h1 hvega
    rw [ivLoop_succ] at h0 h1
    by_cases hveq : |S * normPdf (bsD1 S K T r σ) * Real.sqrt T| < 1 / 10 ^ 10
    · rw [if_pos hveq] at h0
      by_cases hσ : 0 < σ
      · rw [if_pos hσ] at h0
        rw [← Option.some.inj h0] at hvega
        exact absurd hveq hvega
      · rw [if_neg hσ] at h0
        exact Option.noConfusion h0
    · rw [if_neg hveq] at h0 h1
      by_cases hres : |mp - black_scholes_call S K T r σ| < 1 / 10 ^ 6
      · rw [if_pos hres] at h0
        rw [← Option.some.inj h0]
        exact hres
      · rw [if_neg hres] at h0 h1
        by_cases hneg : (σ + (mp - black_scholes_call S K T r σ)
            / (S * normPdf (bsD1 S K T r σ) * Real.sqrt T)) ≤ 0
        · rw [if_pos hneg] at h0
          exact Option.noConfusion h0
        · rw [if_neg hneg] at h0 h1
          exact ih _ v h0 h1 hvega

/-- C7 amended: the round trip recovers the price, not the volatility.
Whenever the solver, run on the price of a synthetic volatility, returns a
volatility whose vega is above the cutoff, and the result is unchanged when
one more iteration of fuel is granted (i.e. the exit was not a truncation at
the 100-iteration cap), the returned volatility reprices the input to within
the `1e-6` residual tolerance.  Recovery of the synthetic volatility itself
within `1e-5` does not hold in general (see the counterexample). -/
theorem C7_amended_roundtrip_price_recovery (S K T r σ0 v : ℝ)
    (h : implied_volatility (black_scholes_call S K T r σ0) S K T r = some v)
    (hstable : ivLoop (black_scholes_call S K T r σ0) S K T r (100 + 1) (3 / 10)
        = some v)
    (hvega : ¬ |S * normPdf (bsD1 S K T r v) * Real.sqrt T| < 1 / 10 ^ 10) :
    |black_scholes_call S K T r v - black_scholes_call S K T r σ0| < 1 / 10 ^ 6 := by
  have hpre : ¬ black_scholes_call S K T r σ0
      ≤ max (S - K * Real.exp (-r * T)) 0 := by
    intro hc
    rw [implied_volatility_precheck hc] at h
    exact Option.noConfusion h
  rw [implied_volatility_loop hpre] at h
  rw [abs_sub_comm]
  exact ivLoop_converged_of_stable 100 (3 / 10) v h hstable hvega

/-! A concrete quote on which the solver converges at the first iteration:
spot 100, maturity 1, rate 0.05, strike `100·e^(1/200)` (chosen so that
`d2 = 0` at volatility 0.3), market price equal to the Black-Scholes price at
volatility 0.3. -/

noncomputable def strikeA : ℝ := 100 * Real.exp (1 / 200)

noncomputable def midA : ℝ := black_scholes_call 100 strikeA 1 (1 / 20) (3 / 10)

theorem strikeA_pos : 0 < strikeA := by
  rw [strikeA]; positivity

theorem d1A : bsD1 100 strikeA 1 (1 / 20) (3 / 10) = 3 / 10 := by
  rw [bsD1]
  have h1 : (100 : ℝ) / strikeA = Real.exp (-(1 / 200)) := by
    rw [strikeA, Real.exp_neg]
    field_simp
  rw [h1, Real.log_exp, Real.sqrt_one]
  norm_num

theorem vegaA_large :
    ¬ |(100 : ℝ) * normPdf (bsD1 100 strikeA 1 (1 / 20) (3 / 10)) * Real.sqrt 1|
        < 1 / 10 ^ 10 := by
  rw [d1A, Real.sqrt_one, mul_one,
    abs_of_nonneg (mul_nonneg (by norm_num) (normPdf_nonneg _))]
  push_neg
  nlinarith [normPdf_three_tenths]

theorem strikeA_discount :
    strikeA * Real.exp (-(1 / 20) * 1) = 100 * Real.exp (-(9 / 200)) := by
  rw [strikeA, mul_assoc, ← Real.exp_add]
  norm_num

theorem normCdf_three_tenths_lb : 1 / 2 + 27 / 250 ≤ normCdf (3 / 10) := by
  have hm : ∀ x ∈ Ioc (0 : ℝ) (3 / 10), normPdf (3 / 10) ≤ normPdf x := by
    intro x hx
    rw [normPdf, normPdf]
    refine mul_le_mul_of_nonneg_left ?_ (inv_nonneg.mpr (Real.sqrt_nonneg _))
    refine Real.exp_le_exp.mpr ?_
    nlinarith [hx.1, hx.2]
  have h1 := le_normCdf_sub (by norm_num : (0 : ℝ) ≤ 3 / 10) hm
  rw [normCdf_zero] at h1
  nlinarith [normPdf_three_tenths]

theorem exp_neg_nine_two_hundredths_lb : (191 / 200 : ℝ) ≤ Real.exp (-(9 / 200)) := by
  have h := Real.add_one_le_exp (-(9 / 200 : ℝ))
  linarith

theorem exp_neg_nine_two_hundredths_lt_one : Real.exp (-(9 / 200 : ℝ)) < 1 := by
  rw [← Real.exp_zero]
  exact Real.exp_lt_exp.mpr (by norm_num)

theorem midA_eval :
    midA = 100 * normCdf (3 / 10) - 100 * Real.exp (-(9 / 200)) * (1 / 2) := by
  rw [midA, black_scholes_call, if_neg (by push_neg; norm_num), d1A, Real.sqrt_one,
    show (3 / 10 : ℝ) - 3 / 10 * 1 = 0 by norm_num, normCdf_zero, strikeA_discount]

theorem boundA_lt_midA :
    max (100 - strikeA * Real.exp (-(1 / 20) * 1)) 0 < midA := by
  have he1 := exp_neg_nine_two_hundredths_lb
  have he2 := exp_neg_nine_two_hundredths_lt_one
  have hc := normCdf_three_tenths_lb
  rw [strikeA_discount, midA_eval,
    max_eq_left (by nlinarith : (0 : ℝ) ≤ 100 - 100 * Real.exp (-(9 / 200)))]
  nlinarith

theorem midA_pos : 0 < midA :=
  lt_of_le_of_lt (le_max_right _ 0) boundA_lt_midA

theorem midA_residual_zero :
    |midA - black_scholes_call 100 strikeA 1 (1 / 20) (3 / 10)| < 1 / 10 ^ 6 := by
  rw [show midA - black_scholes_call 100 strikeA 1 (1 / 20) (3 / 10) = 0 from
    sub_self _, abs_zero]
  norm_num

theorem midA_iv : implied_volatility midA 100 strikeA 1 (1 / 20) = some (3 / 10) := by
  rw [implied_volatility_loop (not_le.mpr boundA_lt_midA)]
  exact ivLoop_residual_exit 99 vegaA_large midA_residual_zero

/-- C7 amended witness: on the concrete quote the solver converges at the
first iteration to `0.3`, the result is fuel-stable, the vega is above the
cutoff, and the repricing residual is below `1e-6`. -/
theorem C7_amended_witness :
    implied_volatility (black_scholes_call 100 strikeA 1 (1 / 20) (3 / 10))
        100 strikeA 1 (1 / 20) = some (3 / 10)
    ∧ ivLoop (black_scholes_call 100 strikeA 1 (1 / 20) (3 / 10))
        100 strikeA 1 (1 / 20) (100 + 1) (3 / 10) = some (3 / 10)
    ∧ ¬ |(100 : ℝ) * normPdf (bsD1 100 strikeA 1 (1 / 20) (3 / 10)) * Real.sqrt 1|
        < 1 / 10 ^ 10
    ∧ |black_scholes_call 100 strikeA 1 (1 / 20) (3 / 10)
        - black_scholes_call 100 strikeA 1 (1 / 20) (3 / 10)| < 1 / 10 ^ 6 := by
  have h1 : implied_volatility (black_scholes_call 100 strikeA 1 (1 / 20) (3 / 10))
      100 strikeA 1 (1 / 20) = some (3 / 10) := midA_iv
  have h2 : ivLoop (black_scholes_call 100 strikeA 1 (1 / 20) (3 / 10))
      100 strikeA 1 (1 / 20) (100 + 1) (3 / 10) = some (3 / 10) :=
    ivLoop_residual_exit 100 vegaA_large midA_residual_zero
  exact ⟨h1, h2, vegaA_large,
    C7_amended_roundtrip_price_recovery 100 strikeA 1 (1 / 20) (3 / 10) (3 / 10)
      h1 h2 vegaA_large⟩

end OptionsPDF

namespace OptionsPDF

/-! The Breeden-Litzenberger density extractor. -/

/-- `np.trapz(y, x)`: composite trapezoidal rule over paired sample points. -/
noncomputable def trapz : List ℝ → List ℝ → ℝ
  | y0 :: y1 :: ys, x0 :: x1 :: xs =>
      (y0 + y1) / 2 * (x1 - x0) + trapz (y1 :: ys) (x1 :: xs)
  | _, _ => 0

/-- Interior strikes `strikes[1:-1]` (source line 319). -/
def interiorStrikes (strikes : List ℝ) : List ℝ :=
  (strikes.drop 1).dropLast

/-- The central finite-difference loop of `calculate_pdf_from_calls`
(source lines 320-325): `dK = strikes[i+1] - strikes[i]`,
`second_deriv = (C[i] - 2·C[i+1] + C[i+2]) / dK²`, scaled by `e^(r·tau)`. -/
noncomputable def rawPdfValues (strikes callPrices : List ℝ) (r tau : ℝ) : List ℝ :=
  (List.range (interiorStrikes strikes).length).map fun i =>
    Real.exp (r * tau) *
      ((callPrices.getD i 0 - 2 * callPrices.getD (i + 1) 0 + callPrices.getD (i + 2) 0)
        / (strikes.getD (i + 1) 0 - strikes.getD i 0) ^ 2)

/-- The clamp step `np.maximum(pdf_values, 0)` (source line 327). -/
noncomputable def clampedPdfValues (strikes callPrices : List ℝ) (r tau : ℝ) : List ℝ :=
  (rawPdfValues strikes callPrices r tau).map fun v => max v 0

/-- `calculate_pdf_from_calls` (source lines 316-333): interior strikes,
finite differences, clamp, then normalization by the trapezoidal integral
when that integral is strictly positive. -/
noncomputable def calculate_pdf_from_calls (strikes callPrices : List ℝ) (r tau : ℝ) :
    List ℝ × List ℝ :=
  let pdfStrikes := interiorStrikes strikes
  let clamped := clampedPdfValues strikes callPrices r tau
  let integral := trapz clamped pdfStrikes
  (pdfStrikes, if 0 < integral then clamped.map fun v => v / integral else clamped)

theorem calculate_pdf_from_calls_fst (strikes callPrices : List ℝ) (r tau : ℝ) :
    (calculate_pdf_from_calls strikes callPrices r tau).1 = interiorStrikes strikes := rfl

theorem calculate_pdf_from_calls_snd (strikes callPrices : List ℝ) (r tau : ℝ) :
    (calculate_pdf_from_calls strikes callPrices r tau).2 =
      if 0 < trapz (clampedPdfValues strikes callPrices r tau) (interiorStrikes strikes)
      then (clampedPdfValues strikes callPrices r tau).map
        (fun v => v / trapz (clampedPdfValues strikes callPrices r tau)
          (interiorStrikes strikes))
      else clampedPdfValues strikes callPrices r tau := rfl

/-- The trapezoidal rule is homogeneous: dividing every sample by `c` divides
the integral by `c`. -/
theorem trapz_map_div (c : ℝ) :
    ∀ (y x : List ℝ), trapz (y.map fun v => v / c) x = trapz y x / c := by
  intro y
  induction y with
  | nil =>
    intro x
    simp [trapz]
  | cons y0 ytail ih =>
    intro x
    cases ytail with
    | nil =>
      cases x with
      | nil => simp [trapz]
      | cons x0 xs =>
        cases xs with
        | nil => simp [trapz]
        | cons x1 xs1 => simp [trapz]
    | cons y1 ys =>
      cases x with
      | nil => simp [trapz]
      | cons x0 xs =>
        cases xs with
        | nil => simp [trapz]
        | cons x1 xs1 =>
          have hih := ih (x1 :: xs1)
          simp only [List.map_cons] at hih ⊢
          rw [trapz, trapz, hih]
          ring

theorem interiorStrikes_length (strikes : List ℝ) :
    (interiorStrikes strikes).length = strikes.length - 2 := by
  rw [interiorStrikes, List.length_dropLast, List.length_drop]
  omega

theorem clampedPdfValues_length (strikes callPrices : List ℝ) (r tau : ℝ) :
    (clampedPdfValues strikes callPrices r tau).length
      = (interiorStrikes strikes).length := by
  rw [clampedPdfValues, List.length_map, rawPdfValues, List.length_map,
    List.length_range]

theorem calculate_pdf_from_calls_snd_length (strikes callPrices : List ℝ) (r tau : ℝ) :
    (calculate_pdf_from_calls strikes callPrices r tau).2.length
      = (interiorStrikes strikes).length := by
  rw [calculate_pdf_from_calls_snd]
  by_cases hI : 0 < trapz (clampedPdfValues strikes callPrices r tau)
      (interiorStrikes strikes)
  · rw [if_pos hI, List.length_map, clampedPdfValues_length]
  · rw [if_neg hI, clampedPdfValues_length]

/-- C6: if the trapezoidal integral of the clamped density over the interior
grid is strictly positive, every value is divided by it and the
post-normalization trapezoidal integral equals 1 (hence is within the `1e-3`
tolerance); if the integral is ≤ 0, the clamped values are returned
unchanged, with no error. -/
theorem C6_normalization (strikes callPrices : List ℝ) (r tau : ℝ) :
    (0 < trapz (clampedPdfValues strikes callPrices r tau) (interiorStrikes strikes) →
      (calculate_pdf_from_calls strikes callPrices r tau).2
          = (clampedPdfValues strikes callPrices r tau).map
            (fun v => v / trapz (clampedPdfValues strikes callPrices r tau)
              (interiorStrikes strikes))
        ∧ |trapz (calculate_pdf_from_calls strikes callPrices r tau).2
            (calculate_pdf_from_calls strikes callPrices r tau).1 - 1| ≤ 1 / 10 ^ 3)
    ∧ (trapz (clampedPdfValues strikes callPrices r tau) (interiorStrikes strikes) ≤ 0 →
      (calculate_pdf_from_calls strikes callPrices r tau).2
        = clampedPdfValues strikes callPrices r tau) := by
  constructor
  · intro hpos
    have hsnd : (calculate_pdf_from_calls strikes callPrices r tau).2
        = (clampedPdfValues strikes callPrices r tau).map
          (fun v => v / trapz (clampedPdfValues strikes callPrices r tau)
            (interiorStrikes strikes)) := by
      rw [calculate_pdf_from_calls_snd, if_pos hpos]
    refine ⟨hsnd, ?_⟩
    rw [hsnd, calculate_pdf_from_calls_fst, trapz_map_div,
      div_self hpos.ne']
    norm_num
  · intro hle
    rw [calculate_pdf_from_calls_snd, if_neg (not_lt.mpr hle)]

/-- C8: for a dense grid of length ≥ 3 with associated call prices, the
extractor drops exactly the first and last grid points, and both returned
lists have length exactly the grid length minus 2. -/
theorem C8_output_length (strikes callPrices : List ℝ) (r tau : ℝ)
    (_hlen : 3 ≤ strikes.length) (_hp : callPrices.length = strikes.length) :
    (calculate_pdf_from_calls strikes callPrices r tau).1 = (strikes.drop 1).dropLast
    ∧ (calculate_pdf_from_calls strikes callPrices r tau).1.length = strikes.length - 2
    ∧ (calculate_pdf_from_calls strikes callPrices r tau).2.length
        = strikes.length - 2 := by
  refine ⟨rfl, ?_, ?_⟩
  · rw [calculate_pdf_from_calls_fst, interiorStrikes_length]
  · rw [calculate_pdf_from_calls_snd_length, interiorStrikes_length]

/-- C8 witness: a grid of length 3 yields one interior point. -/
theorem C8_witness :
    3 ≤ ([0, 1, 2] : List ℝ).length
    ∧ ([5, 5, 5] : List ℝ).length = ([0, 1, 2] : List ℝ).length
    ∧ (calculate_pdf_from_calls [0, 1, 2] [5, 5, 5] 0 1).1.length = 1
    ∧ (calculate_pdf_from_calls [0, 1, 2] [5, 5, 5] 0 1).2.length = 1 := by
  have h := C8_output_length [0, 1, 2] [5, 5, 5] 0 1 (by norm_num) (by norm_num)
  refine ⟨by norm_num, by norm_num, ?_, ?_⟩
  · rw [h.2.1]
    norm_num
  · rw [h.2.2]
    norm_num

/-- C6 witness: on the grid `[0,1,2,3]` with call prices `[1,0,0,1]`, rate 0
and maturity 1, the clamped density is `[1,1]` on the interior grid `[1,2]`,
its integral is `1 > 0`, and the normalized integral equals 1. -/
theorem C6_witness :
    0 < trapz (clampedPdfValues [0, 1, 2, 3] [1, 0, 0, 1] 0 1)
        (interiorStrikes [0, 1, 2, 3])
    ∧ |trapz (calculate_pdf_from_calls [0, 1, 2, 3] [1, 0, 0, 1] 0 1).2
        (calculate_pdf_from_calls [0, 1, 2, 3] [1, 0, 0, 1] 0 1).1 - 1| ≤ 1 / 10 ^ 3 := by
  have hint : interiorStrikes ([0, 1, 2, 3] : List ℝ) = [1, 2] := by
    rw [interiorStrikes]
    rfl
  have hclamp : clampedPdfValues [0, 1, 2, 3] [1, 0, 0, 1] 0 1 = [1, 1] := by
    rw [clampedPdfValues, rawPdfValues, hint]
    simp only [List.length_cons, List.length_nil]
    rw [show List.range 2 = [0, 1] from rfl]
    simp only [List.map_cons, List.map_nil, List.getD_cons_zero, List.getD_cons_succ]
    norm_num [Real.exp_zero]
  have hpos : 0 < trapz (clampedPdfValues [0, 1, 2, 3] [1, 0, 0, 1] 0 1)
      (interiorStrikes [0, 1, 2, 3]) := by
    rw [hclamp, hint]
    rw [show trapz [(1 : ℝ), 1] [1, 2]
        = (1 + 1) / 2 * (2 - 1) + trapz [(1 : ℝ)] [(2 : ℝ)] from rfl,
      show trapz [(1 : ℝ)] [(2 : ℝ)] = 0 from rfl]
    norm_num
  exact ⟨hpos, ((C6_normalization [0, 1, 2, 3] [1, 0, 0, 1] 0 1).1 hpos).2⟩

end OptionsPDF

namespace OptionsPDF

/-! The pipeline `calculate_pdf` (source lines 335-427), numerical core only:
the yfinance fetch, UI logging, plotting and AI analysis are I/O; the spot
price, the fetched option-chain rows and the maturity are parameters. -/

/-- A row of the fetched option chain: strike, bid, ask, volume. -/
structure CallQuote where
  strike : ℝ
  bid : ℝ
  ask : ℝ
  volume : ℝ

/-- Insertion into a list sorted ascending by strike. -/
noncomputable def insertByStrike (c : CallQuote) : List CallQuote → List CallQuote
  | [] => [c]
  | q :: qs => if c.strike ≤ q.strike then c :: q :: qs else q :: insertByStrike c qs

/-- `sort_values('strike')`: sort ascending by strike (source line 376). -/
noncomputable def sortByStrike (l : List CallQuote) : List CallQuote :=
  l.foldr insertByStrike []

/-- The liquidity filter and sort of source line 376:
`calls[(calls['volume'] > 0) & (calls['bid'] > 0)].sort_values('strike')`. -/
noncomputable def liquidCalls (calls : List CallQuote) : List CallQuote :=
  sortByStrike (calls.filter fun c => decide (0 < c.volume ∧ 0 < c.bid))

/-- The IV extraction loop (source lines 390-397): mid price `(bid+ask)/2`,
inversion, acceptance band `0.05 < iv < 2.0`; failed or out-of-band points are
dropped silently. -/
noncomputable def ivPoints (S tau r : ℝ) (calls : List CallQuote) : List (ℝ × ℝ) :=
  calls.filterMap fun c =>
    match implied_volatility ((c.bid + c.ask) / 2) S c.strike tau r with
    | none => none
    | some iv => if 1 / 20 < iv ∧ iv < 2 then some (c.strike, iv) else none

/-- `np.linspace lo hi n`: `n` uniformly spaced points from `lo` to `hi`
inclusive (source line 405 uses `n = 200`). -/
noncomputable def linspace (lo hi : ℝ) (n : ℕ) : List ℝ :=
  (List.range n).map fun i : ℕ => lo + (hi - lo) * (i : ℝ) / ((n : ℝ) - 1)

/-- The interface of `scipy.optimize.minimize` as used by `fit_svi`
(source lines 307-308): it receives the objective closure and the initial
guess and yields `result.x`.  The optimizer is external library code with no
source in this repository, so it is kept abstract; every pipeline theorem
below holds for an arbitrary optimizer. -/
def Optimizer : Type :=
  (SVIParams → ℝ) → SVIParams → SVIParams

/-- Insertion into a sorted list of reals. -/
noncomputable def insertReal (x : ℝ) : List ℝ → List ℝ
  | [] => [x]
  | y :: ys => if x ≤ y then x :: y :: ys else y :: insertReal x ys

noncomputable def sortReal (l : List ℝ) : List ℝ :=
  l.foldr insertReal []

/-- `np.median`: sort and take the middle element (average of the two middle
elements for an even count).  On the empty list numpy yields nan under a
suppressed warning; the model returns 0 — the value only ever flows into the
opaque optimizer argument, never into control flow. -/
noncomputable def median (l : List ℝ) : ℝ :=
  if l.length = 0 then 0
  else if l.length % 2 = 1 then (sortReal l).getD (l.length / 2) 0
  else ((sortReal l).getD (l.length / 2 - 1) 0 + (sortReal l).getD (l.length / 2) 0) / 2

/-- `fit_svi` (source lines 293-314): log-moneyness, total variance, the
initial guess `[median(total_var), 0.1, 0.0, 0.0, 0.1]`, then the external
bounded optimizer; returns `(result.x, k)`;  the convergence flag is only
logged, the returned parameters are used unconditionally. -/
noncomputable def fit_svi (opt : Optimizer) (strikes IVs : List ℝ) (forward tau : ℝ) :
    SVIParams × List ℝ :=
  let k := strikes.map fun K => Real.log (K / forward)
  let totalVar := IVs.map fun v => v ^ 2 * tau
  let guess : SVIParams := ⟨median totalVar, 1 / 10, 0, 0, 1 / 10⟩
  (opt (fun p => svi_objective p k totalVar) guess, k)

/-- The two exceptions the pipeline can raise after fetching:
`ValueError("Insufficient liquid options")` (source line 379), and the
`ValueError` numpy raises at `strikes.min()` on an empty array
(source line 405, reached only when no quote survives IV inversion — note
this is after `fit_svi` has already been attempted on the empty data). -/
inductive PipeError where
  | insufficientLiquid : PipeError
  | emptyStrikes : PipeError

/-- The numerical fields of `self.last_results` (source lines 421-427);
`ticker` and `expiry` are I/O strings. -/
structure PipelineResult where
  currentPrice : ℝ
  strikes : List ℝ
  IVs : List ℝ
  fittedIVs : List ℝ
  smoothStrikes : List ℝ
  pdfStrikes : List ℝ
  pdfValues : List ℝ
  tau : ℝ
  optimalParams : SVIParams

/-- The retained implied-volatility points of a run (source lines 390-397). -/
noncomputable def retainedPoints (currentPrice tau : ℝ) (calls : List CallQuote) :
    List (ℝ × ℝ) :=
  ivPoints currentPrice tau (1 / 20) (liquidCalls calls)

/-- The success path of `calculate_pdf` past the grid construction
(source lines 400-427): SVI fit, dense grid `linspace(min, max, 200)`,
fitted variances and IVs, re-pricing, density extraction. -/
noncomputable def pipelineSuccess (opt : Optimizer) (currentPrice tau lo hi : ℝ)
    (pts : List (ℝ × ℝ)) : PipelineResult :=
  let strikes := pts.map Prod.fst
  let IVs := pts.map Prod.snd
  let forward := currentPrice * Real.exp ((1 / 20) * tau)
  let fit := fit_svi opt strikes IVs forward tau
  let smoothStrikes := linspace lo hi 200
  let kSmooth := smoothStrikes.map fun k => Real.log (k / forward)
  let fittedVar := kSmooth.map fun k => svi_variance k fit.1
  let fittedIVs := fittedVar.map fun w => Real.sqrt (w / tau)
  let smoothPrices := (smoothStrikes.zip fittedIVs).map
    fun q => black_scholes_call currentPrice q.1 tau (1 / 20) q.2
  let pdf := calculate_pdf_from_calls smoothStrikes smoothPrices (1 / 20) tau
  ⟨currentPrice, strikes, IVs, fittedIVs, smoothStrikes, pdf.1, pdf.2, tau, fit.1⟩

/-- `calculate_pdf` (source lines 335-427), numerical core: liquidity filter,
`len(calls) < 5` check, IV extraction, then the success path keyed on
`strikes.min()` / `strikes.max()` being defined.  `r = 0.05` is the constant
of source line 387. -/
noncomputable def calculate_pdf (opt : Optimizer) (currentPrice tau : ℝ)
    (calls : List CallQuote) : Except PipeError PipelineResult :=
  let liquid := liquidCalls calls
  if liquid.length < 5 then Except.error PipeError.insufficientLiquid
  else
    let pts := ivPoints currentPrice tau (1 / 20) liquid
    match (pts.map Prod.fst).min?, (pts.map Prod.fst).max? with
    | some lo, some hi => Except.ok (pipelineSuccess opt currentPrice tau lo hi pts)
    | _, _ => Except.error PipeError.emptyStrikes

/-- A concrete stand-in optimizer (returns the initial guess), used only to
instantiate the optimizer-polymorphic pipeline theorems on closed inputs. -/
def opt0 : Optimizer := fun _ guess => guess

theorem calculate_pdf_eq_ok (opt : Optimizer) (currentPrice tau : ℝ)
    (calls : List CallQuote) {lo hi : ℝ}
    (h5 : ¬ (liquidCalls calls).length < 5)
    (hlo : ((retainedPoints currentPrice tau calls).map Prod.fst).min? = some lo)
    (hhi : ((retainedPoints currentPrice tau calls).map Prod.fst).max? = some hi) :
    calculate_pdf opt currentPrice tau calls
      = Except.ok (pipelineSuccess opt currentPrice tau lo hi
          (retainedPoints currentPrice tau calls)) := by
  rw [calculate_pdf]
  simp only [if_neg h5]
  rw [show ivPoints currentPrice tau (1 / 20) (liquidCalls calls)
      = retainedPoints currentPrice tau calls from rfl, hlo, hhi]

theorem pipeline_ok_of (opt : Optimizer) (currentPrice tau : ℝ)
    (calls : List CallQuote)
    (h5 : ¬ (liquidCalls calls).length < 5)
    (hne : retainedPoints currentPrice tau calls ≠ []) :
    (calculate_pdf opt currentPrice tau calls).isOk = true := by
  obtain ⟨q, qs, hq⟩ : ∃ q qs, retainedPoints currentPrice tau calls = q :: qs := by
    cases hpts : retainedPoints currentPrice tau calls with
    | nil => exact absurd hpts hne
    | cons q qs => exact ⟨q, qs, rfl⟩
  have hlo : ((retainedPoints currentPrice tau calls).map Prod.fst).min?
      = some ((qs.map Prod.fst).foldl min q.1) := by
    rw [hq]
    rfl
  have hhi : ((retainedPoints currentPrice tau calls).map Prod.fst).max?
      = some ((qs.map Prod.fst).foldl max q.1) := by
    rw [hq]
    rfl
  rw [calculate_pdf_eq_ok opt currentPrice tau calls h5 hlo hhi]
  rfl

end OptionsPDF

namespace OptionsPDF

theorem pipelineSuccess_smoothStrikes (opt : Optimizer) (currentPrice tau lo hi : ℝ)
    (pts : List (ℝ × ℝ)) :
    (pipelineSuccess opt currentPrice tau lo hi pts).smoothStrikes
      = linspace lo hi 200 := rfl

theorem pipelineSuccess_strikes (opt : Optimizer) (currentPrice tau lo hi : ℝ)
    (pts : List (ℝ × ℝ)) :
    (pipelineSuccess opt currentPrice tau lo hi pts).strikes = pts.map Prod.fst := rfl

theorem pipelineSuccess_IVs (opt : Optimizer) (currentPrice tau lo hi : ℝ)
    (pts : List (ℝ × ℝ)) :
    (pipelineSuccess opt currentPrice tau lo hi pts).IVs = pts.map Prod.snd := rfl

theorem pipelineSuccess_pdfStrikes (opt : Optimizer) (currentPrice tau lo hi : ℝ)
    (pts : List (ℝ × ℝ)) :
    (pipelineSuccess opt currentPrice tau lo hi pts).pdfStrikes
      = interiorStrikes (linspace lo hi 200) := rfl

theorem pipelineSuccess_pdfValues_length (opt : Optimizer)
    (currentPrice tau lo hi : ℝ) (pts : List (ℝ × ℝ)) :
    (pipelineSuccess opt currentPrice tau lo hi pts).pdfValues.length
      = (interiorStrikes (linspace lo hi 200)).length :=
  calculate_pdf_from_calls_snd_length _ _ _ _

theorem linspace_length (lo hi : ℝ) (n : ℕ) : (linspace lo hi n).length = n := by
  rw [linspace, List.length_map, List.length_range]

theorem linspace_getD (lo hi : ℝ) (n i : ℕ) (h : i < n) :
    (linspace lo hi n).getD i 0 = lo + (hi - lo) * i / ((n : ℝ) - 1) := by
  rw [linspace, List.getD_eq_getElem?_getD, List.getElem?_map, List.getElem?_range h]
  rfl

theorem linspace_first (lo hi : ℝ) : (linspace lo hi 200).getD 0 0 = lo := by
  rw [linspace_getD lo hi 200 0 (by norm_num)]
  norm_num

theorem linspace_last (lo hi : ℝ) : (linspace lo hi 200).getD 199 0 = hi := by
  rw [linspace_getD lo hi 200 199 (by norm_num)]
  push_cast
  ring

theorem linspace_spacing (lo hi : ℝ) (i : ℕ) (h : i + 1 < 200) :
    (linspace lo hi 200).getD (i + 1) 0 - (linspace lo hi 200).getD i 0
      = (hi - lo) / 199 := by
  rw [linspace_getD lo hi 200 (i + 1) h, linspace_getD lo hi 200 i (by omega)]
  push_cast
  ring

/-- C10: on every successful run, the dense fitted grid is exactly
`np.linspace(min, max, 200)` over the retained strikes — 200 points, first
equal to the minimum, last equal to the maximum, consecutive spacing the
constant `(max − min)/199` — and the density curve has exactly 198 points. -/
theorem C10_grid_and_density_lengths (opt : Optimizer) (currentPrice tau : ℝ)
    (calls : List CallQuote) (res : PipelineResult)
    (h : calculate_pdf opt currentPrice tau calls = Except.ok res) :
    res.smoothStrikes.length = 200
    ∧ res.pdfStrikes.length = 198
    ∧ res.pdfValues.length = 198
    ∧ ∃ lo hi, res.strikes.min? = some lo ∧ res.strikes.max? = some hi
        ∧ res.smoothStrikes = linspace lo hi 200
        ∧ res.smoothStrikes.getD 0 0 = lo
        ∧ res.smoothStrikes.getD 199 0 = hi
        ∧ ∀ i, i + 1 < 200 →
            res.smoothStrikes.getD (i + 1) 0 - res.smoothStrikes.getD i 0
              = (hi - lo) / 199 := by
  simp only [calculate_pdf] at h
  by_cases h5 : (liquidCalls calls).length < 5
  · rw [if_pos h5] at h
    exact Except.noConfusion h
  · rw [if_neg h5] at h
    cases hlo : ((ivPoints currentPrice tau (1 / 20) (liquidCalls calls)).map
        Prod.fst).min? with
    | none =>
      cases hhi : ((ivPoints currentPrice tau (1 / 20) (liquidCalls calls)).map
          Prod.fst).max? with
      | none =>
        rw [hlo, hhi] at h
        exact Except.noConfusion h
      | some hi2 =>
        rw [hlo, hhi] at h
        exact Except.noConfusion h
    | some lo =>
      cases hhi : ((ivPoints currentPrice tau (1 / 20) (liquidCalls calls)).map
          Prod.fst).max? with
      | none =>
        rw [hlo, hhi] at h
        exact Except.noConfusion h
      | some hi2 =>
        rw [hlo, hhi] at h
        have hres : res = pipelineSuccess opt currentPrice tau lo hi2
            (ivPoints currentPrice tau (1 / 20) (liquidCalls calls)) :=
          (Except.ok.inj h).symm
        subst hres
        refine ⟨?_, ?_, ?_, lo, hi2, hlo, hhi, rfl, linspace_first lo hi2,
          linspace_last lo hi2, fun i h2 => linspace_spacing lo hi2 i h2⟩
        · rw [pipelineSuccess_smoothStrikes, linspace_length]
        · rw [pipelineSuccess_pdfStrikes, interiorStrikes_length, linspace_length]
        · rw [pipelineSuccess_pdfValues_length, interiorStrikes_length,
            linspace_length]

/-- C2 amended: the `< 5` hard-failure check applies to the liquid quote count
before IV inversion (source line 378), not to the surviving IV points; the
pipeline performs no minimum-count check after inversion, so a run with at
least 5 liquid quotes of which fewer than 5 (but at least 1) survive proceeds
through calibration and density extraction and completes.  With zero
survivors the run does abort, but only at the empty `strikes.min()` — after
calibration has already been attempted. -/
theorem C2_amended_no_count_check_after_inversion (opt : Optimizer)
    (currentPrice tau : ℝ) (calls : List CallQuote)
    (h5 : 5 ≤ (liquidCalls calls).length)
    (hne : retainedPoints currentPrice tau calls ≠ [])
    (_hlt : (retainedPoints currentPrice tau calls).length < 5) :
    (calculate_pdf opt currentPrice tau calls).isOk = true :=
  pipeline_ok_of opt currentPrice tau calls (not_lt.mpr h5) hne

/-- C3 amended: the pipeline has no degenerate-strike-range check; when the
minimum and maximum retained strikes coincide it still builds the (constant)
dense grid and computes densities (dividing by the zero grid spacing — nan in
IEEE arithmetic), completing without an InputError. -/
theorem C3_amended_no_degenerate_range_check (opt : Optimizer)
    (currentPrice tau : ℝ) (calls : List CallQuote)
    (h5 : 5 ≤ (liquidCalls calls).length)
    (hne : retainedPoints currentPrice tau calls ≠ [])
    (_hdeg : ((retainedPoints currentPrice tau calls).map Prod.fst).min?
        = ((retainedPoints currentPrice tau calls).map Prod.fst).max?) :
    (calculate_pdf opt currentPrice tau calls).isOk = true :=
  pipeline_ok_of opt currentPrice tau calls (not_lt.mpr h5) hne

end OptionsPDF

namespace OptionsPDF

/-! Concrete pipeline inputs.  `quoteA` is the first-iteration-convergent
quote (strike `100·e^(1/200)`, bid = ask = Black-Scholes price at volatility
0.3); `quoteB` (strike 50, mid 1) is liquid but fails the solver's intrinsic
pre-check, so it is dropped by the IV loop. -/

noncomputable def quoteA : CallQuote := ⟨strikeA, midA, midA, 1⟩

noncomputable def quoteB : CallQuote := ⟨50, 1, 1, 1⟩

/-- Five liquid quotes of which exactly four survive inversion. -/
noncomputable def callsX : List CallQuote := [quoteB, quoteA, quoteA, quoteA, quoteA]

/-- Five identical liquid quotes, all surviving: degenerate strike range. -/
noncomputable def callsY : List CallQuote := [quoteA, quoteA, quoteA, quoteA, quoteA]

theorem strikeB_le_strikeA : (50 : ℝ) ≤ strikeA := by
  rw [strikeA]
  nlinarith [Real.add_one_le_exp (1 / 200 : ℝ)]

theorem quoteB_iv_none :
    implied_volatility ((1 + 1) / 2) 100 50 1 (1 / 20) = none := by
  apply implied_volatility_precheck
  have h1 : Real.exp (-(1 / 20) * 1) ≤ 1 := by
    rw [← Real.exp_zero]
    exact Real.exp_le_exp.mpr (by norm_num)
  have h2 : ((1 + 1) / 2 : ℝ) ≤ 100 - 50 * Real.exp (-(1 / 20) * 1) := by nlinarith
  exact le_trans h2 (le_max_left _ _)

theorem quoteA_iv_some :
    implied_volatility ((midA + midA) / 2) 100 strikeA 1 (1 / 20) = some (3 / 10) := by
  rw [show ((midA + midA) / 2 : ℝ) = midA by ring]
  exact midA_iv

theorem insertByStrike_cons_le (c q : CallQuote) (qs : List CallQuote)
    (h : c.strike ≤ q.strike) : insertByStrike c (q :: qs) = c :: q :: qs := by
  rw [insertByStrike, if_pos h]

theorem filter_callsX :
    callsX.filter (fun c => decide (0 < c.volume ∧ 0 < c.bid)) = callsX := by
  have hA : (decide (0 < quoteA.volume ∧ 0 < quoteA.bid)) = true := by
    rw [decide_eq_true_eq]
    exact ⟨one_pos, midA_pos⟩
  have hB : (decide (0 < quoteB.volume ∧ 0 < quoteB.bid)) = true := by
    rw [decide_eq_true_eq]
    exact ⟨one_pos, one_pos⟩
  rw [callsX]
  simp only [List.filter_cons, List.filter_nil, hA, hB, if_true]

theorem filter_callsY :
    callsY.filter (fun c => decide (0 < c.volume ∧ 0 < c.bid)) = callsY := by
  have hA : (decide (0 < quoteA.volume ∧ 0 < quoteA.bid)) = true := by
    rw [decide_eq_true_eq]
    exact ⟨one_pos, midA_pos⟩
  rw [callsY]
  simp only [List.filter_cons, List.filter_nil, hA, if_true]

theorem sort_callsX : sortByStrike callsX = callsX := by
  have e1 : insertByStrike quoteA [] = [quoteA] := rfl
  have e2 : insertByStrike quoteA [quoteA] = [quoteA, quoteA] :=
    insertByStrike_cons_le _ _ _ le_rfl
  have e3 : insertByStrike quoteA [quoteA, quoteA] = [quoteA, quoteA, quoteA] :=
    insertByStrike_cons_le _ _ _ le_rfl
  have e4 : insertByStrike quoteA [quoteA, quoteA, quoteA]
      = [quoteA, quoteA, quoteA, quoteA] := insertByStrike_cons_le _ _ _ le_rfl
  have e5 : insertByStrike quoteB [quoteA, quoteA, quoteA, quoteA]
      = [quoteB, quoteA, quoteA, quoteA, quoteA] :=
    insertByStrike_cons_le _ _ _ strikeB_le_strikeA
  rw [callsX, sortByStrike]
  simp only [List.foldr_cons, List.foldr_nil, e1, e2, e3, e4, e5]

theorem sort_callsY : sortByStrike callsY = callsY := by
  have e1 : insertByStrike quoteA [] = [quoteA] := rfl
  have e2 : insertByStrike quoteA [quoteA] = [quoteA, quoteA] :=
    insertByStrike_cons_le _ _ _ le_rfl
  have e3 : insertByStrike quoteA [quoteA, quoteA] = [quoteA, quoteA, quoteA] :=
    insertByStrike_cons_le _ _ _ le_rfl
  have e4 : insertByStrike quoteA [quoteA, quoteA, quoteA]
      = [quoteA, quoteA, quoteA, quoteA] := insertByStrike_cons_le _ _ _ le_rfl
  have e5 : insertByStrike quoteA [quoteA, quoteA, quoteA, quoteA]
      = [quoteA, quoteA, quoteA, quoteA, quoteA] := insertByStrike_cons_le _ _ _ le_rfl
  rw [callsY, sortByStrike]
  simp only [List.foldr_cons, List.foldr_nil, e1, e2, e3, e4, e5]

theorem liquid_callsX : liquidCalls callsX = callsX := by
  rw [liquidCalls, filter_callsX, sort_callsX]

theorem liquid_callsY : liquidCalls callsY = callsY := by
  rw [liquidCalls, filter_callsY, sort_callsY]

theorem ivPoints_cons_none (S tau r : ℝ) (c : CallQuote) (cs : List CallQuote)
    (h : implied_volatility ((c.bid + c.ask) / 2) S c.strike tau r = none) :
    ivPoints S tau r (c :: cs) = ivPoints S tau r cs := by
  rw [ivPoints, ivPoints]
  simp only [List.filterMap_cons, h]

theorem ivPoints_cons_some (S tau r : ℝ) (c : CallQuote) (cs : List CallQuote)
    (iv : ℝ) (h : implied_volatility ((c.bid + c.ask) / 2) S c.strike tau r = some iv)
    (hband : 1 / 20 < iv ∧ iv < 2) :
    ivPoints S tau r (c :: cs) = (c.strike, iv) :: ivPoints S tau r cs := by
  rw [ivPoints, ivPoints]
  simp only [List.filterMap_cons, h, if_pos hband]

theorem retained_callsX :
    retainedPoints 100 1 callsX
      = [(strikeA, 3 / 10), (strikeA, 3 / 10), (strikeA, 3 / 10), (strikeA, 3 / 10)] := by
  have hB : implied_volatility ((quoteB.bid + quoteB.ask) / 2) 100 quoteB.strike 1
      (1 / 20) = none := quoteB_iv_none
  have hA : implied_volatility ((quoteA.bid + quoteA.ask) / 2) 100 quoteA.strike 1
      (1 / 20) = some (3 / 10) := quoteA_iv_some
  rw [retainedPoints, liquid_callsX, callsX,
    ivPoints_cons_none _ _ _ _ _ hB,
    ivPoints_cons_some _ _ _ _ _ _ hA (by norm_num),
    ivPoints_cons_some _ _ _ _ _ _ hA (by norm_num),
    ivPoints_cons_some _ _ _ _ _ _ hA (by norm_num),
    ivPoints_cons_some _ _ _ _ _ _ hA (by norm_num)]
  rfl

theorem retained_callsY :
    retainedPoints 100 1 callsY
      = [(strikeA, 3 / 10), (strikeA, 3 / 10), (strikeA, 3 / 10), (strikeA, 3 / 10),
          (strikeA, 3 / 10)] := by
  have hA : implied_volatility ((quoteA.bid + quoteA.ask) / 2) 100 quoteA.strike 1
      (1 / 20) = some (3 / 10) := quoteA_iv_some
  rw [retainedPoints, liquid_callsY, callsY,
    ivPoints_cons_some _ _ _ _ _ _ hA (by norm_num),
    ivPoints_cons_some _ _ _ _ _ _ hA (by norm_num),
    ivPoints_cons_some _ _ _ _ _ _ hA (by norm_num),
    ivPoints_cons_some _ _ _ _ _ _ hA (by norm_num),
    ivPoints_cons_some _ _ _ _ _ _ hA (by norm_num)]
  rfl

theorem retained_callsX_min :
    ((retainedPoints 100 1 callsX).map Prod.fst).min? = some strikeA := by
  rw [retained_callsX]
  simp [List.min?, min_self]

theorem retained_callsX_max :
    ((retainedPoints 100 1 callsX).map Prod.fst).max? = some strikeA := by
  rw [retained_callsX]
  simp [List.max?, max_self]

theorem retained_callsY_min :
    ((retainedPoints 100 1 callsY).map Prod.fst).min? = some strikeA := by
  rw [retained_callsY]
  simp [List.min?, min_self]

theorem retained_callsY_max :
    ((retainedPoints 100 1 callsY).map Prod.fst).max? = some strikeA := by
  rw [retained_callsY]
  simp [List.max?, max_self]

theorem liquid_callsX_not_lt : ¬ (liquidCalls callsX).length < 5 := by
  rw [liquid_callsX, callsX]
  norm_num

theorem liquid_callsY_not_lt : ¬ (liquidCalls callsY).length < 5 := by
  rw [liquid_callsY, callsY]
  norm_num

/-- C2 counterexample: on `callsX` (five liquid quotes) only four
implied-volatility points survive, yet the pipeline completes successfully —
calibration and density extraction are performed (the result holds 4 IV
points and a 198-point density) instead of aborting with an input error. -/
theorem C2_counterexample :
    (retainedPoints 100 1 callsX).length = 4
    ∧ (calculate_pdf opt0 100 1 callsX).map
        (fun res => (res.IVs.length, res.pdfValues.length)) = Except.ok (4, 198) := by
  have hlen : (retainedPoints 100 1 callsX).length = 4 := by
    rw [retained_callsX]
    rfl
  have hrun := calculate_pdf_eq_ok opt0 100 1 callsX liquid_callsX_not_lt
    retained_callsX_min retained_callsX_max
  refine ⟨hlen, ?_⟩
  rw [hrun]
  simp only [Except.map]
  rw [pipelineSuccess_IVs, List.length_map, hlen,
    pipelineSuccess_pdfValues_length, interiorStrikes_length, linspace_length]

/-- C3 counterexample: on `callsY` the retained strike range is degenerate
(minimum = maximum), yet the pipeline builds the dense grid, computes a
198-point density, and completes instead of aborting with an InputError. -/
theorem C3_counterexample :
    ((retainedPoints 100 1 callsY).map Prod.fst).min?
        = ((retainedPoints 100 1 callsY).map Prod.fst).max?
    ∧ (calculate_pdf opt0 100 1 callsY).map (fun res => res.pdfValues.length)
        = Except.ok 198 := by
  have hrun := calculate_pdf_eq_ok opt0 100 1 callsY liquid_callsY_not_lt
    retained_callsY_min retained_callsY_max
  refine ⟨retained_callsY_min.trans retained_callsY_max.symm, ?_⟩
  rw [hrun]
  simp only [Except.map]
  rw [pipelineSuccess_pdfValues_length, interiorStrikes_length, linspace_length]

/-- C2 amended witness: `callsX` has 5 liquid quotes, a non-empty retained
set of fewer than 5 points, and the pipeline completes. -/
theorem C2_amended_witness :
    5 ≤ (liquidCalls callsX).length
    ∧ retainedPoints 100 1 callsX ≠ []
    ∧ (retainedPoints 100 1 callsX).length < 5
    ∧ (calculate_pdf opt0 100 1 callsX).isOk = true := by
  have h5 : 5 ≤ (liquidCalls callsX).length := not_lt.mp liquid_callsX_not_lt
  have hne : retainedPoints 100 1 callsX ≠ [] := by
    rw [retained_callsX]
    exact List.cons_ne_nil _ _
  have hlt : (retainedPoints 100 1 callsX).length < 5 := by
    rw [retained_callsX]
    norm_num
  exact ⟨h5, hne, hlt,
    C2_amended_no_count_check_after_inversion opt0 100 1 callsX h5 hne hlt⟩

/-- C3 amended witness: `callsY` has 5 liquid quotes, a non-empty retained
set with coinciding minimum and maximum strike, and the pipeline completes. -/
theorem C3_amended_witness :
    5 ≤ (liquidCalls callsY).length
    ∧ retainedPoints 100 1 callsY ≠ []
    ∧ ((retainedPoints 100 1 callsY).map Prod.fst).min?
        = ((retainedPoints 100 1 callsY).map Prod.fst).max?
    ∧ (calculate_pdf opt0 100 1 callsY).isOk = true := by
  have h5 : 5 ≤ (liquidCalls callsY).length := not_lt.mp liquid_callsY_not_lt
  have hne : retainedPoints 100 1 callsY ≠ [] := by
    rw [retained_callsY]
    exact List.cons_ne_nil _ _
  have hdeg := retained_callsY_min.trans retained_callsY_max.symm
  exact ⟨h5, hne, hdeg,
    C3_amended_no_degenerate_range_check opt0 100 1 callsY h5 hne hdeg⟩

/-- C10 witness: a successful concrete run has a 200-point dense grid and
198-point density curve. -/
theorem C10_witness :
    (calculate_pdf opt0 100 1 callsY).map
        (fun res => (res.smoothStrikes.length, res.pdfStrikes.length,
          res.pdfValues.length)) = Except.ok (200, 198, 198) := by
  have hrun := calculate_pdf_eq_ok opt0 100 1 callsY liquid_callsY_not_lt
    retained_callsY_min retained_callsY_max
  have hC10 := C10_grid_and_density_lengths opt0 100 1 callsY _ hrun
  rw [hrun]
  simp only [Except.map]
  rw [hC10.1, hC10.2.1, hC10.2.2.1]

end OptionsPDF
